import Mathlib

/-!
Formal model of the event-bridge server in src/server.js.

The server subscribes to the WebsiteUrlReturned contract event over a
WebSocket provider, persists each notification as a UrlEvent document in
MongoDB, and serves POST /api/get-website, which polls the store for a
record matching the transaction hash of the request (up to 30 attempts,
one every 1000 ms) before answering 404.

Machine integers do not occur: all counters and times are small natural
numbers (milliseconds since the epoch), modelled as Nat.
-/

/-- One persisted document of the UrlEvent mongoose model
(src/server.js lines 117-125).  The mongoose schema declares the three
string fields as optional String, so the transactionHash field is an
Option; the two Date fields default to the creation instant and are
modelled as milliseconds.  The spec calls timestamp observedAt and
processedAt persistedAt. -/
structure UrlEvent where
  userAddress : String
  url : String
  transactionHash : Option String
  timestamp : Nat
  processedAt : Nat
  deriving DecidableEq

/-- The MongoDB collection backing the UrlEvent model, in insertion
order.  Documents are only ever inserted by urlEvent.save() in the
event listener; nothing in src/server.js updates or deletes them. -/
abbrev Store := List UrlEvent

/-- Model of UrlEvent.findOne on the filter with the single key
transactionHash (src/server.js line 195): the first document, in
insertion order, whose transactionHash field equals the queried value.
The query value is an Option String because the route reads it from the
request body, where the field may be absent (JS undefined). -/
def findOne (s : Store) (q : Option String) : Option UrlEvent :=
  s.find? (fun r => r.transactionHash == q)

/-- The data carried by one WebsiteUrlReturned event notification that
the listener reads: event.returnValues.user, event.returnValues.url and
event.transactionHash (src/server.js lines 159-163). -/
structure ChainEvent where
  user : String
  url : String
  transactionHash : String
  deriving DecidableEq

/-- The document built by new UrlEvent in the data handler
(src/server.js lines 159-163): userAddress and url from the decoded
event, transactionHash from the notification, and the two Date fields
filled by their schema defaults of Date.now at construction, which is
the ingestion instant. -/
def mkUrlEvent (ev : ChainEvent) (now : Nat) : UrlEvent :=
  ⟨ev.user, ev.url, some ev.transactionHash, now, now⟩

/-- The constant maxAttempts of the route handler (src/server.js line 192). -/
def maxAttempts : Nat := 30

/-- The polling delay in milliseconds passed to setTimeout
(src/server.js line 223). -/
def intervalMs : Nat := 1000

/-- The restart delay in milliseconds passed to setTimeout in the error
handler of the event listener (src/server.js line 179). -/
def restartDelayMs : Nat := 5000

/-- The literal error string of the 404 body (src/server.js line 217). -/
def notFoundMsg : String := "URL não encontrada"

/-- An HTTP response sent by the route handler: res.json on success
(src/server.js lines 204-208) or res.status(404).json on exhaustion
(lines 216-220). -/
inductive HttpResponse where
  | ok (url : String) (processTime : Nat) (timestamp : Nat)
  | notFound (error : String) (attempts : Nat) (processTime : Nat)
  deriving DecidableEq

/-- The final fate of one POST /api/get-website request: either some
poll sent a response (responded, recording the index of that poll), or
a poll aborted with a rejected store query and no response was ever
sent (unanswered).  The rejection of the async checkUrl is not awaited
anywhere, so it cannot reach the try/catch of the route handler; it is
only logged by the process-level unhandledRejection hook
(src/server.js lines 250-252). -/
inductive Outcome where
  | responded (r : HttpResponse) (lastPoll : Nat)
  | unanswered (atPoll : Nat) (msg : String)
  deriving DecidableEq

/-- What a single invocation of checkUrl does after its store query
returns: send a response and stop, schedule exactly one follow-up
invocation after a delay, or die on a rejected query (sending nothing
and scheduling nothing). -/
inductive StepAction where
  | respond (r : HttpResponse)
  | scheduleNext (delayMs : Nat) (nextAttempts : Nat)
  | die (msg : String)
  deriving DecidableEq

/-- One invocation of checkUrl (src/server.js lines 194-224), given the
result of its awaited findOne, the current clock reading, the startTime
of the request and the value of the attempts counter on entry.  If a
document is found it answers 200 with the url and timestamp fields of
the document and the elapsed time; otherwise it increments attempts,
answers 404 once attempts reaches maxAttempts, and else schedules one
more invocation intervalMs later. -/
def checkUrlStep (queryResult : Except String (Option UrlEvent))
    (now startTime attempts : Nat) : StepAction :=
  match queryResult with
  | .error msg => .die msg
  | .ok (some ev) => .respond (.ok ev.url (now - startTime) ev.timestamp)
  | .ok none =>
      if attempts + 1 ≥ maxAttempts then
        .respond (.notFound notFoundMsg (attempts + 1) (now - startTime))
      else
        .scheduleNext intervalMs (attempts + 1)

/-- The whole self-rescheduling polling loop of the route handler
(src/server.js lines 194-226).  queryAt n is the result of the awaited
UrlEvent.findOne of the poll with index n (the store may change between
polls, and the query may reject); time n is Date.now() at that poll.
The loop starts at poll index 0 with attempts = 0. -/
def checkUrl (queryAt : Nat → Except String (Option UrlEvent))
    (time : Nat → Nat) (startTime : Nat) (n : Nat) (attempts : Nat) : Outcome :=
  match queryAt n with
  | .error msg => .unanswered n msg
  | .ok (some ev) => .responded (.ok ev.url (time n - startTime) ev.timestamp) n
  | .ok none =>
      if h : attempts + 1 ≥ maxAttempts then
        .responded (.notFound notFoundMsg (attempts + 1) (time n - startTime)) n
      else
        checkUrl queryAt time startTime (n + 1) (attempts + 1)
  termination_by maxAttempts - attempts
  decreasing_by omega

/-- The POST /api/get-website handler (src/server.js lines 184-231):
records startTime, sets attempts to 0, and fires the first checkUrl
invocation.  The catch clause of the handler never fires for store
failures, because checkUrl is an async function invoked without await,
so its rejection is not observed by the surrounding try. -/
def handleGetWebsite (queryAt : Nat → Except String (Option UrlEvent))
    (time : Nat → Nat) (startTime : Nat) : Outcome :=
  checkUrl queryAt time startTime 0 0

/-- How many HTTP responses an outcome carries: one when some poll
responded, zero when the loop died on a rejected query. -/
def responsesSent : Outcome → Nat
  | .responded _ _ => 1
  | .unanswered _ _ => 0

/-- How many store queries a loop that started at poll index 0
performed: one per invocation, at consecutive indices 0, 1, ..., up to
and including the poll recorded in the outcome. -/
def pollsPerformed : Outcome → Nat
  | .responded _ n => n + 1
  | .unanswered n _ => n + 1

/-- A query schedule obtained by running findOne against the store
contents as they stand at each poll, with no query failures. -/
def queryStore (stores : Nat → Store) (q : Option String) :
    Nat → Except String (Option UrlEvent) :=
  fun n => .ok (findOne (stores n) q)

/-- The states of the subscription lifecycle described by the spec:
the process starts Disconnected, startEventListener moves it to
Connecting, the connected callback of the subscription to Subscribed,
and the error callback schedules a restart, which is Recovering. -/
inductive SubState where
  | disconnected
  | connecting
  | subscribed
  | recovering
  deriving DecidableEq

/-- The causes for which the subscription emitter fires its error
callback (src/server.js line 176): a transport-level error, the
termination of the stream, or an application-level error raised while
the library processes a notification batch.  The handler in
startEventListener ignores which cause it was. -/
inductive ErrorCause where
  | transportError
  | streamEnd
  | processingError
  deriving DecidableEq

/-- The in-memory state of the Chain Subscriber: its lifecycle state,
the delay of the pending setTimeout(startEventListener, 5000) when one
is scheduled, and the store it appends to. -/
structure SubscriberState where
  state : SubState
  pendingRestart : Option Nat
  store : Store
  deriving DecidableEq

/-- The callback invocations that drive the subscriber, one per handler
registered in src/server.js: startEventListener itself (line 146), the
connect, error and end handlers of the WebSocket provider (lines
41-51, all of which only log), and the connected, data, changed and
error handlers of the event subscription (lines 152-180).  A data
invocation carries the decoded event, whether urlEvent.save()
succeeded, and the clock reading at ingestion; restartTimerFires is
the firing of the scheduled restart timer. -/
inductive SubEvent where
  | listenerStart
  | provConnect
  | provError
  | provEnd
  | subConnected
  | subData (ev : ChainEvent) (saveOk : Bool) (now : Nat)
  | subChanged
  | subError (cause : ErrorCause)
  | restartTimerFires
  deriving DecidableEq

/-- One transition of the subscriber, mirroring the handlers of
src/server.js.  The provider-level connect, error and end handlers only
log (lines 41-51).  The data handler builds and saves a UrlEvent; a
save failure is caught by the try/catch at lines 158-171 and only
logged, leaving everything unchanged.  The changed handler only logs a
reorg (lines 173-175).  The subscription error handler logs and
schedules startEventListener after restartDelayMs (lines 176-180),
whatever the cause was.  When the scheduled timer fires the listener
restarts, which is the transition back to connecting. -/
def subStep (st : SubscriberState) (e : SubEvent) : SubscriberState :=
  match e with
  | .listenerStart => ⟨.connecting, none, st.store⟩
  | .provConnect => st
  | .provError => st
  | .provEnd => st
  | .subConnected => ⟨.subscribed, st.pendingRestart, st.store⟩
  | .subChanged => st
  | .subData ev saveOk now =>
      match st.state with
      | .subscribed =>
          if saveOk then ⟨.subscribed, st.pendingRestart, st.store ++ [mkUrlEvent ev now]⟩
          else st
      | _ => st
  | .subError _ => ⟨.recovering, some restartDelayMs, st.store⟩
  | .restartTimerFires =>
      match st.pendingRestart with
      | some _ => ⟨.connecting, none, st.store⟩
      | none => st

/-- The operations of the whole system that touch, or could touch, the
store: a notification handled by the data callback (which appends one
document when the save succeeds, src/server.js lines 159-164), one
poll of a lookup (a pure findOne read, line 195), the health check
(reads two connection flags, lines 234-241), and the SIGTERM shutdown
(closes the store connection without touching data, lines 254-264). -/
inductive SysOp where
  | chainNotification (ev : ChainEvent) (saveOk : Bool) (now : Nat)
  | lookupPoll (q : Option String)
  | healthCheck
  | shutdown
  deriving DecidableEq

/-- The store contents after one system operation. -/
def storeAfterOp (s : Store) : SysOp → Store
  | .chainNotification ev saveOk now =>
      if saveOk then s ++ [mkUrlEvent ev now] else s
  | .lookupPoll _ => s
  | .healthCheck => s
  | .shutdown => s

/-- The store contents after a sequence of system operations. -/
def storeAfterOps (s : Store) : List SysOp → Store
  | [] => s
  | op :: rest => storeAfterOps (storeAfterOp s op) rest

/-- A sample persisted document used to instantiate theorems at
concrete inputs, matching the scenario of the spec. -/
def sampleEvent : UrlEvent :=
  ⟨"0x1111111111111111111111111111111111111111",
   "https://example.com/page", some "0xABC", 42, 42⟩

/-- Unfolding lemma: a poll whose store query rejects ends the loop
with no response. -/
lemma checkUrl_error (q : Nat → Except String (Option UrlEvent)) (t : Nat → Nat)
    (st n a : Nat) (m : String) (hq : q n = .error m) :
    checkUrl q t st n a = .unanswered n m := by
  rw [checkUrl, hq]

/-- Unfolding lemma: a poll that finds a document answers 200 at once. -/
lemma checkUrl_found (q : Nat → Except String (Option UrlEvent)) (t : Nat → Nat)
    (st n a : Nat) (ev : UrlEvent) (hq : q n = .ok (some ev)) :
    checkUrl q t st n a = .responded (.ok ev.url (t n - st) ev.timestamp) n := by
  rw [checkUrl, hq]

/-- Unfolding lemma: an empty-handed poll that brings the attempts
counter to maxAttempts answers 404 at once. -/
lemma checkUrl_exhaust (q : Nat → Except String (Option UrlEvent)) (t : Nat → Nat)
    (st n a : Nat) (hq : q n = .ok none) (ha : a + 1 ≥ maxAttempts) :
    checkUrl q t st n a = .responded (.notFound notFoundMsg (a + 1) (t n - st)) n := by
  rw [checkUrl, hq]
  simp [ha]

/-- Unfolding lemma: an empty-handed poll below the deadline schedules
exactly one more poll. -/
lemma checkUrl_continue (q : Nat → Except String (Option UrlEvent)) (t : Nat → Nat)
    (st n a : Nat) (hq : q n = .ok none) (ha : a + 1 < maxAttempts) :
    checkUrl q t st n a = checkUrl q t st (n + 1) (a + 1) := by
  rw [checkUrl, hq]
  simp [Nat.not_le.mpr ha]

/-- A run of d + 1 consecutive empty-handed polls starting with the
attempts counter at a, where a + d + 1 = maxAttempts, ends at poll
n + d with the 404 response carrying attempts = maxAttempts. -/
lemma checkUrl_allNoneRun (q : Nat → Except String (Option UrlEvent)) (t : Nat → Nat)
    (st : Nat) :
    ∀ d n a, a + d + 1 = maxAttempts → (∀ m, m ≤ d → q (n + m) = .ok none) →
      checkUrl q t st n a =
        .responded (.notFound notFoundMsg maxAttempts (t (n + d) - st)) (n + d) := by
  intro d
  induction d with
  | zero =>
      intro n a ha hq
      have h0 : q n = .ok none := by simpa using hq 0 (Nat.le_refl 0)
      have := checkUrl_exhaust q t st n a h0 (by omega)
      simpa [ha] using this
  | succ d ih =>
      intro n a ha hq
      have h0 : q n = .ok none := by simpa using hq 0 (Nat.zero_le _)
      have hstep := checkUrl_continue q t st n a h0 (by omega)
      have hq2 : ∀ m, m ≤ d → q (n + 1 + m) = .ok none := by
        intro m hm
        have := hq (m + 1) (by omega)
        have harr : n + (m + 1) = n + 1 + m := by omega
        rwa [harr] at this
      have hrest := ih (n + 1) (a + 1) (by omega) hq2
      have hidx : n + 1 + d = n + (d + 1) := by omega
      rw [hstep, hrest, hidx]

/-- A run of d empty-handed polls followed by a poll that finds the
document ev ends at poll n + d with the 200 response built from ev,
provided the deadline is not yet exhausted. -/
lemma checkUrl_foundRun (q : Nat → Except String (Option UrlEvent)) (t : Nat → Nat)
    (st : Nat) (ev : UrlEvent) :
    ∀ d n a, a + d < maxAttempts → (∀ m, m < d → q (n + m) = .ok none) →
      q (n + d) = .ok (some ev) →
      checkUrl q t st n a =
        .responded (.ok ev.url (t (n + d) - st) ev.timestamp) (n + d) := by
  intro d
  induction d with
  | zero =>
      intro n a ha hq hfound
      simpa using checkUrl_found q t st n a ev (by simpa using hfound)
  | succ d ih =>
      intro n a ha hq hfound
      have h0 : q n = .ok none := by simpa using hq 0 (Nat.succ_pos d)
      have hstep := checkUrl_continue q t st n a h0 (by omega)
      have hq2 : ∀ m, m < d → q (n + 1 + m) = .ok none := by
        intro m hm
        have := hq (m + 1) (by omega)
        have harr : n + (m + 1) = n + 1 + m := by omega
        rwa [harr] at this
      have hidx : n + 1 + d = n + (d + 1) := by omega
      have hfound2 : q (n + 1 + d) = .ok (some ev) := by rwa [hidx]
      have hrest := ih (n + 1) (a + 1) (by omega) hq2 hfound2
      rw [hstep, hrest, hidx]

/-- Lower bound on the clock: when every timer of the loop fires no
earlier than intervalMs after it was set, the clock at poll n is at
least n full intervals past the clock at poll 0. -/
lemma clock_lower (t : Nat → Nat) (ht : ∀ m, t m + intervalMs ≤ t (m + 1)) :
    ∀ n, t 0 + n * intervalMs ≤ t n := by
  intro n
  induction n with
  | zero => simp
  | succ n ih =>
      have := ht n
      have harith : t 0 + (n + 1) * intervalMs ≤ t n + intervalMs := by
        have : (n + 1) * intervalMs = n * intervalMs + intervalMs := by ring
        omega
      omega

/-- Upper bound on the clock: when consecutive polls are at most D
milliseconds apart, the clock at poll n is at most n * D past the
clock at poll 0. -/
lemma clock_upper (t : Nat → Nat) (D : Nat) (ht : ∀ m, t (m + 1) ≤ t m + D) :
    ∀ n, t n ≤ t 0 + n * D := by
  intro n
  induction n with
  | zero => simp
  | succ n ih =>
      have := ht n
      have : (n + 1) * D = n * D + D := by ring
      omega

/-- When every record of the store carries a some transaction hash, a
findOne for the absent value (none) matches nothing. -/
lemma findOne_none_of_allSome (s : Store)
    (hall : ∀ r ∈ s, r.transactionHash.isSome) :
    findOne s none = none := by
  rw [findOne, List.find?_eq_none]
  intro r hr
  have hsome := hall r hr
  cases hx : r.transactionHash with
  | none => rw [hx] at hsome; simp at hsome
  | some v => simp [hx]

/-- C1: a POST /api/get-website lookup whose hash never matches any
stored record performs exactly maxAttempts = 30 store queries (polls
0 through 29), each empty-handed poll below the deadline scheduling the
next via a setTimeout of intervalMs = 1000 ms, and then answers 404
with the error string, attempts = 30 and the elapsed processTime; since
each of the 29 timers fires no earlier than intervalMs after it was
set, the elapsed time is at least (maxAttempts - 1) * intervalMs. -/
theorem getWebsite_noRecord_404_after30
    (q : Nat → Except String (Option UrlEvent)) (t : Nat → Nat) (startTime : Nat)
    (hq : ∀ m, q m = .ok none)
    (ht : ∀ m, t m + intervalMs ≤ t (m + 1))
    (hs : startTime ≤ t 0) :
    handleGetWebsite q t startTime =
        .responded (.notFound notFoundMsg maxAttempts (t (maxAttempts - 1) - startTime))
          (maxAttempts - 1)
      ∧ pollsPerformed (handleGetWebsite q t startTime) = maxAttempts
      ∧ (∀ m, m < maxAttempts - 1 →
          checkUrlStep (q m) (t m) startTime m = .scheduleNext intervalMs (m + 1))
      ∧ (maxAttempts - 1) * intervalMs ≤ t (maxAttempts - 1) - startTime := by
  have hmain : handleGetWebsite q t startTime =
      .responded (.notFound notFoundMsg maxAttempts (t (maxAttempts - 1) - startTime))
        (maxAttempts - 1) := by
    have hrun := checkUrl_allNoneRun q t startTime (maxAttempts - 1) 0 0
      (by simp [maxAttempts]) (fun m _ => hq _)
    simpa [handleGetWebsite] using hrun
  refine ⟨hmain, ?_, ?_, ?_⟩
  · rw [hmain]
    simp [pollsPerformed, maxAttempts]
  · intro m hm
    have hmlt : ¬ (m + 1 ≥ maxAttempts) := by
      simp only [maxAttempts] at hm ⊢
      omega
    simp [checkUrlStep, hq m, hmlt]
  · have hc := clock_lower t ht (maxAttempts - 1)
    generalize hK : (maxAttempts - 1) * intervalMs = K at hc ⊢
    omega

/-- Witness for C1 at a concrete schedule: the query never matches and
each poll happens exactly 1000 ms after the previous one. -/
theorem getWebsite_noRecord_404_after30_witness :
    handleGetWebsite (fun _ => .ok none) (fun m => m * intervalMs) 0 =
        .responded (.notFound notFoundMsg 30 29000) 29
      ∧ pollsPerformed (handleGetWebsite (fun _ => .ok none) (fun m => m * intervalMs) 0) = 30 := by
  have h := getWebsite_noRecord_404_after30 (fun _ => .ok none) (fun m => m * intervalMs) 0
    (fun m => rfl)
    (fun m => by
      show m * intervalMs + intervalMs ≤ (m + 1) * intervalMs
      simp only [intervalMs]
      omega)
    (Nat.zero_le _)
  refine ⟨?_, ?_⟩
  · have h1 := h.1
    simpa [maxAttempts, intervalMs] using h1
  · have h2 := h.2.1
    simpa [maxAttempts] using h2

/-- C2: a lookup whose record is found at poll k (possibly after k
earlier empty-handed polls, the record having been persisted mid-poll)
answers 200 at that poll with the url field of the record, the elapsed
processTime, and the timestamp (observedAt) field of the record, and
the loop ends there; when consecutive polls are at most D ms apart the
reported processTime is at most k * D, reflecting the attempts actually
elapsed rather than the full deadline. -/
theorem getWebsite_found_succeeds
    (q : Nat → Except String (Option UrlEvent)) (t : Nat → Nat)
    (startTime k D : Nat) (ev : UrlEvent)
    (hk : k < maxAttempts)
    (hbefore : ∀ m, m < k → q m = .ok none)
    (hfound : q k = .ok (some ev))
    (ht : ∀ m, t (m + 1) ≤ t m + D)
    (h0 : t 0 = startTime) :
    handleGetWebsite q t startTime =
        .responded (.ok ev.url (t k - startTime) ev.timestamp) k
      ∧ t k - startTime ≤ k * D := by
  have hmain : handleGetWebsite q t startTime =
      .responded (.ok ev.url (t k - startTime) ev.timestamp) k := by
    have hrun := checkUrl_foundRun q t startTime ev k 0 0 (by omega)
      (fun m hm => by simpa using hbefore m hm) (by simpa using hfound)
    simpa [handleGetWebsite] using hrun
  refine ⟨hmain, ?_⟩
  have hc := clock_upper t D ht k
  generalize hK : k * D = K at hc ⊢
  omega

/-- Witness for C2: the record is persisted after 3 empty polls and the
lookup succeeds at poll 3 with processTime 3000 ms, well below the
30-second deadline. -/
theorem getWebsite_found_succeeds_witness :
    handleGetWebsite (fun n => if n < 3 then .ok none else .ok (some sampleEvent))
        (fun m => m * intervalMs) 0 =
      .responded (.ok "https://example.com/page" 3000 42) 3 := by
  have h := getWebsite_found_succeeds
    (fun n => if n < 3 then .ok none else .ok (some sampleEvent))
    (fun m => m * intervalMs) 0 3 intervalMs sampleEvent
    (by simp [maxAttempts])
    (fun m hm => by simp [hm])
    (by norm_num)
    (fun m => by
      show (m + 1) * intervalMs ≤ m * intervalMs + intervalMs
      simp only [intervalMs]
      omega)
    (by simp)
  have h1 := h.1
  simpa [sampleEvent, intervalMs] using h1

/-- C3: when the awaited store query of the first poll rejects, the
request receives no HTTP response at all.  The route wraps the polling
loop in try/catch intending a 500 response, but checkUrl is an async
function invoked without await, so its rejection never reaches the
catch clause: the loop dies and zero responses are sent, contradicting
the specified 500 with the error message. -/
theorem getWebsite_storeError_unanswered :
    handleGetWebsite (fun _ => .error "store query failed") (fun m => m * intervalMs) 0 =
        .unanswered 0 "store query failed"
      ∧ responsesSent
          (handleGetWebsite (fun _ => .error "store query failed") (fun m => m * intervalMs) 0) = 0 := by
  have h := checkUrl_error (fun _ => .error "store query failed") (fun m => m * intervalMs)
    0 0 0 "store query failed" rfl
  constructor
  · exact h
  · simp only [handleGetWebsite] at *
    rw [h]
    rfl

/-- C4: a request whose body omits transactionHash queries the store
with the absent value (JS undefined, modelled as none); since every
record persisted by the listener carries a some transaction hash, no
poll ever matches, and the request exhausts the deadline exactly like
an unknown hash: 404 with attempts = 30 after 30 polls. -/
theorem getWebsite_missingHash_404
    (stores : Nat → Store) (t : Nat → Nat) (startTime : Nat)
    (hall : ∀ n r, r ∈ stores n → r.transactionHash.isSome) :
    handleGetWebsite (queryStore stores none) t startTime =
        .responded (.notFound notFoundMsg maxAttempts (t (maxAttempts - 1) - startTime))
          (maxAttempts - 1)
      ∧ pollsPerformed (handleGetWebsite (queryStore stores none) t startTime) = maxAttempts := by
  have hq : ∀ m, queryStore stores none m = .ok none := by
    intro m
    simp only [queryStore]
    rw [findOne_none_of_allSome (stores m) (fun r hr => hall m r hr)]
  have hmain : handleGetWebsite (queryStore stores none) t startTime =
      .responded (.notFound notFoundMsg maxAttempts (t (maxAttempts - 1) - startTime))
        (maxAttempts - 1) := by
    have hrun := checkUrl_allNoneRun (queryStore stores none) t startTime (maxAttempts - 1) 0 0
      (by simp [maxAttempts]) (fun m _ => hq _)
    simpa [handleGetWebsite] using hrun
  refine ⟨hmain, ?_⟩
  rw [hmain]
  simp [pollsPerformed, maxAttempts]

/-- Witness for C4: the store holds one record the whole time, with a
real transaction hash, and a request without transactionHash still
times out after 30 polls. -/
theorem getWebsite_missingHash_404_witness :
    handleGetWebsite (queryStore (fun _ => [sampleEvent]) none) (fun m => m * intervalMs) 0 =
        .responded (.notFound notFoundMsg 30 29000) 29 := by
  have h := getWebsite_missingHash_404 (fun _ => [sampleEvent]) (fun m => m * intervalMs) 0
    (by
      intro n r hr
      rw [List.mem_singleton] at hr
      subst hr
      rfl)
  have h1 := h.1
  simpa [maxAttempts, intervalMs] using h1

/-- C5: while Subscribed, the error callback of the subscription moves
the machine to Recovering for every cause (transport error, stream
termination, error while processing a notification batch), always
scheduling startEventListener after restartDelayMs = 5000 ms; firing
that timer re-enters Connecting; and no state of the subscriber is a
sink: every state has an event that leaves it, so the subscriber never
reaches a terminal state. -/
theorem subscriber_error_recovers_forever (c : ErrorCause) (s : Store) (p : Option Nat) :
    subStep ⟨.subscribed, p, s⟩ (.subError c) = ⟨.recovering, some restartDelayMs, s⟩
    ∧ subStep ⟨.recovering, some restartDelayMs, s⟩ .restartTimerFires = ⟨.connecting, none, s⟩
    ∧ ∀ st : SubscriberState, ∃ e : SubEvent, (subStep st e).state ≠ st.state := by
  refine ⟨rfl, rfl, ?_⟩
  intro st
  cases hst : st.state with
  | recovering => exact ⟨.listenerStart, by simp [subStep, hst]⟩
  | disconnected => exact ⟨.subError .transportError, by simp [subStep, hst]⟩
  | connecting => exact ⟨.subError .transportError, by simp [subStep, hst]⟩
  | subscribed => exact ⟨.subError .transportError, by simp [subStep, hst]⟩

/-- C6: a failing urlEvent.save() inside the data handler is caught by
the try/catch of the handler and leaves the subscriber entirely
unchanged: still Subscribed, no restart scheduled, store identical, so
the record of that notification is lost with no retry; and the very
same state still processes the next notification normally. -/
theorem subscriber_saveFailure_continues (ev : ChainEvent) (now : Nat) (s : Store) (p : Option Nat) :
    subStep ⟨.subscribed, p, s⟩ (.subData ev false now) = ⟨.subscribed, p, s⟩
    ∧ ∀ (ev2 : ChainEvent) (now2 : Nat),
        subStep ⟨.subscribed, p, s⟩ (.subData ev2 true now2) =
          ⟨.subscribed, p, s ++ [mkUrlEvent ev2 now2]⟩ :=
  ⟨rfl, fun _ _ => rfl⟩

/-- C7: a notification processed while Subscribed appends exactly the
record built by mkUrlEvent, whose fields are the indexed user address
of the event, the url payload of the event, the transaction hash of the
notification, and timestamp (observedAt) equal to the clock reading at
ingestion. -/
theorem notification_record_fields (ev : ChainEvent) (now : Nat) (s : Store) (p : Option Nat) :
    subStep ⟨.subscribed, p, s⟩ (.subData ev true now) = ⟨.subscribed, p, s ++ [mkUrlEvent ev now]⟩
    ∧ (mkUrlEvent ev now).userAddress = ev.user
    ∧ (mkUrlEvent ev now).url = ev.url
    ∧ (mkUrlEvent ev now).transactionHash = some ev.transactionHash
    ∧ (mkUrlEvent ev now).timestamp = now :=
  ⟨rfl, rfl, rfl, rfl, rfl⟩

/-- C8: a record appended to a store that held no record with its hash
is returned, with all its fields intact, by every later
findByTransactionHash for that hash, whatever further records are
appended after it. -/
theorem persisted_record_roundtrip (s : Store) (r : UrlEvent) (h : String)
    (more : List UrlEvent)
    (hnew : findOne s (some h) = none) (hr : r.transactionHash = some h) :
    findOne (s ++ r :: more) (some h) = some r := by
  simp only [findOne] at hnew ⊢
  rw [List.find?_append, hnew, Option.none_or]
  exact List.find?_cons_of_pos _ (by simp [hr])

/-- Witness for C8: the sample record, appended to the empty store, is
found again by its own hash. -/
theorem persisted_record_roundtrip_witness :
    findOne [sampleEvent] (some "0xABC") = some sampleEvent :=
  persisted_record_roundtrip [] sampleEvent "0xABC" [] rfl rfl

/-- Each single system operation only ever appends to the store. -/
lemma storeAfterOp_extends (s : Store) (op : SysOp) :
    ∃ u, storeAfterOp s op = s ++ u := by
  cases op with
  | chainNotification ev saveOk now =>
      cases saveOk with
      | false => exact ⟨[], by simp [storeAfterOp]⟩
      | true => exact ⟨[mkUrlEvent ev now], by simp [storeAfterOp]⟩
  | lookupPoll q => exact ⟨[], by simp [storeAfterOp]⟩
  | healthCheck => exact ⟨[], by simp [storeAfterOp]⟩
  | shutdown => exact ⟨[], by simp [storeAfterOp]⟩

/-- C9: the store is append-only under every operation of the system:
after any sequence of notification handlings, lookup polls, health
checks and shutdowns, the old store is an unchanged initial segment of
the new one, so every record visible at one point is still visible,
unchanged, at every later point. -/
theorem store_append_only (s : Store) (ops : List SysOp) :
    (∃ u, storeAfterOps s ops = s ++ u)
    ∧ ∀ r, r ∈ s → r ∈ storeAfterOps s ops := by
  have hmain : ∀ (l : List SysOp) (s0 : Store), ∃ u, storeAfterOps s0 l = s0 ++ u := by
    intro l
    induction l with
    | nil => intro s0; exact ⟨[], by simp [storeAfterOps]⟩
    | cons op rest ih =>
        intro s0
        obtain ⟨u1, hu1⟩ := storeAfterOp_extends s0 op
        obtain ⟨u2, hu2⟩ := ih (storeAfterOp s0 op)
        refine ⟨u1 ++ u2, ?_⟩
        show storeAfterOps (storeAfterOp s0 op) rest = s0 ++ (u1 ++ u2)
        rw [hu2, hu1, List.append_assoc]
  refine ⟨hmain ops s, ?_⟩
  intro r hr
  obtain ⟨u, hu⟩ := hmain ops s
  rw [hu]
  exact List.mem_append_left u hr

/-- Witness for C9: a store holding the sample record still contains
it, in place, after a notification, a lookup poll, a health check and
the shutdown. -/
theorem store_append_only_witness :
    (∃ u, storeAfterOps [sampleEvent]
        [SysOp.chainNotification ⟨"0xGq", "https://example.org/x", "0xH2"⟩ true 7,
         SysOp.lookupPoll (some "0xABC"), SysOp.healthCheck, SysOp.shutdown] =
      [sampleEvent] ++ u)
    ∧ sampleEvent ∈ storeAfterOps [sampleEvent]
        [SysOp.chainNotification ⟨"0xGq", "https://example.org/x", "0xH2"⟩ true 7,
         SysOp.lookupPoll (some "0xABC"), SysOp.healthCheck, SysOp.shutdown] :=
  ⟨(store_append_only [sampleEvent]
      [SysOp.chainNotification ⟨"0xGq", "https://example.org/x", "0xH2"⟩ true 7,
       SysOp.lookupPoll (some "0xABC"), SysOp.healthCheck, SysOp.shutdown]).1,
   (store_append_only [sampleEvent]
      [SysOp.chainNotification ⟨"0xGq", "https://example.org/x", "0xH2"⟩ true 7,
       SysOp.lookupPoll (some "0xABC"), SysOp.healthCheck, SysOp.shutdown]).2
     sampleEvent (List.mem_singleton.mpr rfl)⟩

/-- C10: over the lifetime of one request at most one HTTP response is
sent, and each invocation of the polling step is exhaustive and
exclusive: if its step action is a response, the loop ends right there
with that response and schedules nothing further; if it is a schedule,
nothing is sent and exactly one follow-up invocation runs, intervalMs
later, with the attempts counter incremented once; and if the query
rejected, the loop dies having sent nothing. -/
theorem checkUrl_at_most_one_response
    (q : Nat → Except String (Option UrlEvent)) (t : Nat → Nat) (st n a : Nat) :
    responsesSent (checkUrl q t st n a) ≤ 1
    ∧ (∀ r : HttpResponse, checkUrlStep (q n) (t n) st a = .respond r →
        checkUrl q t st n a = .responded r n)
    ∧ (∀ d a2, checkUrlStep (q n) (t n) st a = .scheduleNext d a2 →
        d = intervalMs ∧ a2 = a + 1
          ∧ checkUrl q t st n a = checkUrl q t st (n + 1) (a + 1))
    ∧ (∀ m, checkUrlStep (q n) (t n) st a = .die m →
        checkUrl q t st n a = .unanswered n m) := by
  refine ⟨?_, ?_, ?_, ?_⟩
  · cases h : checkUrl q t st n a <;> simp [responsesSent]
  · intro r hr
    cases hq : q n with
    | error m => rw [hq] at hr; simp [checkUrlStep] at hr
    | ok o =>
        cases o with
        | some ev =>
            rw [hq] at hr
            simp only [checkUrlStep] at hr
            cases hr
            exact checkUrl_found q t st n a ev hq
        | none =>
            rw [hq] at hr
            by_cases ha : a + 1 ≥ maxAttempts
            · simp only [checkUrlStep, if_pos ha] at hr
              cases hr
              exact checkUrl_exhaust q t st n a hq ha
            · simp only [checkUrlStep, if_neg ha] at hr
              cases hr
  · intro d a2 hr
    cases hq : q n with
    | error m => rw [hq] at hr; simp [checkUrlStep] at hr
    | ok o =>
        cases o with
        | some ev => rw [hq] at hr; simp [checkUrlStep] at hr
        | none =>
            rw [hq] at hr
            by_cases ha : a + 1 ≥ maxAttempts
            · simp only [checkUrlStep, if_pos ha] at hr
              cases hr
            · simp only [checkUrlStep, if_neg ha] at hr
              cases hr
              exact ⟨rfl, rfl, checkUrl_continue q t st n a hq (Nat.not_le.mp ha)⟩
  · intro m hr
    cases hq : q n with
    | error m2 =>
        rw [hq] at hr
        simp only [checkUrlStep] at hr
        cases hr
        exact checkUrl_error q t st n a _ hq
    | ok o =>
        cases o with
        | some ev => rw [hq] at hr; simp [checkUrlStep] at hr
        | none =>
            rw [hq] at hr
            by_cases ha : a + 1 ≥ maxAttempts
            · simp only [checkUrlStep, if_pos ha] at hr
              cases hr
            · simp only [checkUrlStep, if_neg ha] at hr
              cases hr

/-- Witness for C10: on an empty-handed first poll the step action is a
single schedule, and the loop value is literally that of the one
follow-up invocation; no response has been sent at that point. -/
theorem checkUrl_at_most_one_response_witness :
    responsesSent (checkUrl (fun _ => .ok none) (fun m => m * intervalMs) 0 0 0) ≤ 1
    ∧ checkUrl (fun _ => .ok none) (fun m => m * intervalMs) 0 0 0 =
        checkUrl (fun _ => .ok none) (fun m => m * intervalMs) 0 1 1 := by
  have h := checkUrl_at_most_one_response (fun _ => .ok none) (fun m => m * intervalMs) 0 0 0
  refine ⟨h.1, ?_⟩
  have hstep : checkUrlStep ((fun _ : Nat => (Except.ok none : Except String (Option UrlEvent))) 0)
      ((fun m => m * intervalMs) 0) 0 0 = .scheduleNext intervalMs 1 := by
    simp [checkUrlStep, maxAttempts]
  exact (h.2.2.1 intervalMs 1 hstep).2.2
